import Mathlib

/-!
# DriveIQ trip telemetry aggregator — shallow embedding

This file embeds the algorithmic core of the DriveIQ application: the
Haversine geodesy helper `calculateDistance`, the per-sample accumulator
update `handleLocationUpdate` (two variants exist in the repository:
the one in the first tracking screen, and the background-tracking screen's
variant, embedded here as `handleLocationUpdateBg`, which adds a
`previousSpeed > 20` guard to hard-brake detection), and the trip
finalization `stopTracking` / `stopTrackingBg` producing the persisted
trip summary.

Numbers: JavaScript numbers holding real values are modelled as `ℝ`
(positions, distances) or `ℚ` (speeds, times — kept rational so that the
event-classification pipeline stays executable); values produced by
`Math.round` are integers and are modelled as `ℤ`; the event counters are
only ever incremented from 0 and are modelled as `ℕ`.
-/

/-- JavaScript `Math.round`: round half toward positive infinity. -/
def jsRound {α : Type} [LinearOrderedField α] [FloorRing α] (x : α) : ℤ :=
  ⌊x + 1 / 2⌋

/-- JavaScript `x.toFixed(digits)` followed by `parseFloat`: round to
`digits` decimal places, ties toward the larger candidate (for the
non-negative values produced here this coincides with `Math.round` of
the scaled value). -/
def toFixed {α : Type} [LinearOrderedField α] [FloorRing α] (digits : ℕ) (x : α) : α :=
  ((jsRound (x * 10 ^ digits) : ℤ) : α) / 10 ^ digits

/-- A location fix as delivered by the location source
(`Location.LocationObject`): `coords.latitude` / `coords.longitude` in
degrees, and `coords.speed` in m/s, which may be `null` (absent). -/
structure LocationObject where
  latitude : ℝ
  longitude : ℝ
  speed : Option ℚ

/-- The trip accumulator (`TripData` in the source). The source record
also carries an `id`, a `startTime` and a dead `avgSpeed` field that the
update path never reads; they play no role in the aggregation and are
kept out of the state. -/
structure TripData where
  distance : ℝ
  maxSpeed : ℤ
  hardBrakes : ℕ
  hardAccelerations : ℕ
  speedingCount : ℕ
  speedReadings : List ℤ

/-- The full mutable tracking state: the `TripData` record plus the two
refs `previousSpeed` and `previousLocation` that live beside it in the
component. -/
structure TrackState where
  tripData : TripData
  previousSpeed : ℤ
  previousLocation : Option (ℝ × ℝ)

/-- `Math.atan2 y x`, via the argument of the complex number `x + y·i`. -/
noncomputable def atan2 (y x : ℝ) : ℝ :=
  Complex.arg ⟨x, y⟩

/-- Haversine distance in kilometers (`calculateDistance` in both
tracking screens, identical text in each). -/
noncomputable def calculateDistance (lat1 lon1 lat2 lon2 : ℝ) : ℝ :=
  let R : ℝ := 6371
  let dLat := (lat2 - lat1) * Real.pi / 180
  let dLon := (lon2 - lon1) * Real.pi / 180
  let a :=
    Real.sin (dLat / 2) * Real.sin (dLat / 2) +
      Real.cos (lat1 * Real.pi / 180) * Real.cos (lat2 * Real.pi / 180) *
        Real.sin (dLon / 2) * Real.sin (dLon / 2)
  let c := 2 * atan2 (Real.sqrt a) (Real.sqrt (1 - a))
  R * c

/-- The converted speed recorded by every handler:
`Math.max(0, Math.round((location.coords.speed || 0) * 3.6))`.
`Option.getD 0` models the `|| 0` normalization of an absent reading. -/
def speedOf (location : LocationObject) : ℤ :=
  max 0 (jsRound ((location.speed.getD 0) * (3.6 : ℚ)))

/-- `handleLocationUpdate` of the first tracking screen (and, with the
same logic, of the first component of the background-tracking file):
converts the raw speed, integrates distance from the previous fix,
updates the running maximum, appends the reading, classifies hard-brake,
hard-acceleration and speeding-crossing events, and stores the current
speed/position for the next call. -/
noncomputable def handleLocationUpdate (st : TrackState) (location : LocationObject) : TrackState :=
  let speedKmh := (location.speed.getD 0) * (3.6 : ℚ)
  let speed : ℤ := max 0 (jsRound speedKmh)
  let tripData := st.tripData
  let tripData :=
    match st.previousLocation with
    | some prev =>
        { tripData with
            distance := tripData.distance +
              calculateDistance prev.1 prev.2 location.latitude location.longitude }
    | none => tripData
  let previousLocation := some (location.latitude, location.longitude)
  let tripData :=
    if speed > tripData.maxSpeed then { tripData with maxSpeed := speed } else tripData
  let tripData := { tripData with speedReadings := tripData.speedReadings ++ [speed] }
  let speedDiff := st.previousSpeed - speed
  let tripData :=
    if speedDiff > 15 then { tripData with hardBrakes := tripData.hardBrakes + 1 } else tripData
  let speedIncrease := speed - st.previousSpeed
  let tripData :=
    if speedIncrease > 15 then
      { tripData with hardAccelerations := tripData.hardAccelerations + 1 }
    else tripData
  let tripData :=
    if speed > 130 ∧ st.previousSpeed ≤ 130 then
      { tripData with speedingCount := tripData.speedingCount + 1 }
    else tripData
  { tripData := tripData, previousSpeed := speed, previousLocation := previousLocation }

/-- `handleLocationUpdate` of the background-tracking screen: identical
to `handleLocationUpdate` except that hard-brake detection additionally
requires `previousSpeed.current > 20`. -/
noncomputable def handleLocationUpdateBg (st : TrackState) (location : LocationObject) : TrackState :=
  let speedKmh := (location.speed.getD 0) * (3.6 : ℚ)
  let speed : ℤ := max 0 (jsRound speedKmh)
  let tripData := st.tripData
  let tripData :=
    match st.previousLocation with
    | some prev =>
        { tripData with
            distance := tripData.distance +
              calculateDistance prev.1 prev.2 location.latitude location.longitude }
    | none => tripData
  let previousLocation := some (location.latitude, location.longitude)
  let tripData :=
    if speed > tripData.maxSpeed then { tripData with maxSpeed := speed } else tripData
  let tripData := { tripData with speedReadings := tripData.speedReadings ++ [speed] }
  let speedDiff := st.previousSpeed - speed
  let tripData :=
    if speedDiff > 15 ∧ st.previousSpeed > 20 then
      { tripData with hardBrakes := tripData.hardBrakes + 1 }
    else tripData
  let speedIncrease := speed - st.previousSpeed
  let tripData :=
    if speedIncrease > 15 then
      { tripData with hardAccelerations := tripData.hardAccelerations + 1 }
    else tripData
  let tripData :=
    if speed > 130 ∧ st.previousSpeed ≤ 130 then
      { tripData with speedingCount := tripData.speedingCount + 1 }
    else tripData
  { tripData := tripData, previousSpeed := speed, previousLocation := previousLocation }

/-- The trip data initialized by `startTracking`: everything zero, no
readings yet. -/
def initialTripData : TripData :=
  { distance := 0
    maxSpeed := 0
    hardBrakes := 0
    hardAccelerations := 0
    speedingCount := 0
    speedReadings := [] }

/-- The full state right after `startTracking`: fresh trip data,
`previousSpeed.current = 0`, `previousLocation.current = null`. -/
def initialTrackState : TrackState :=
  { tripData := initialTripData, previousSpeed := 0, previousLocation := none }

/-- Feeding a whole sequence of location fixes through successive
`handleLocationUpdate` calls. -/
noncomputable def runUpdates (st : TrackState) (locations : List LocationObject) : TrackState :=
  locations.foldl handleLocationUpdate st

/-- The persisted trip record assembled by `stopTracking` (field names
as in the PUT payload). -/
structure TripSummary where
  distance_km : ℝ
  duration_minutes : ℚ
  max_speed : ℤ
  avg_speed : ℚ
  hard_brakes : ℕ
  hard_accelerations : ℕ
  speeding_count : ℕ
  score : ℚ

/-- The final-stats part of `stopTracking` in the first tracking screen:
duration from wall-clock times (ms), average of the recorded readings
(0 when none), the sequentially-computed score clamped at 0, and the
`toFixed` presentation rounding applied to the stored payload. -/
noncomputable def stopTracking (tripData : TripData) (startTimeMs endTimeMs : ℚ) : TripSummary :=
  let durationMs := endTimeMs - startTimeMs
  let durationMinutes := durationMs / 60000
  let avgSpeed : ℚ :=
    if tripData.speedReadings.length > 0 then
      ((tripData.speedReadings.foldl (fun a b => a + b) 0 : ℤ) : ℚ) /
        (tripData.speedReadings.length : ℚ)
    else 0
  let score : ℚ := 100
  let score := score - tripData.hardBrakes * 4
  let score := score - tripData.hardAccelerations * 4
  let score := score - tripData.speedingCount * 8
  let score := max 0 score
  { distance_km := toFixed 2 tripData.distance
    duration_minutes := toFixed 2 durationMinutes
    max_speed := tripData.maxSpeed
    avg_speed := toFixed 1 avgSpeed
    hard_brakes := tripData.hardBrakes
    hard_accelerations := tripData.hardAccelerations
    speeding_count := tripData.speedingCount
    score := score }

/-- The final-stats part of `stopTracking` in the background-tracking
screen: identical except the score is `Math.max(0, Math.round(score))`. -/
noncomputable def stopTrackingBg (tripData : TripData) (startTimeMs endTimeMs : ℚ) : TripSummary :=
  let durationMs := endTimeMs - startTimeMs
  let durationMinutes := durationMs / 60000
  let avgSpeed : ℚ :=
    if tripData.speedReadings.length > 0 then
      ((tripData.speedReadings.foldl (fun a b => a + b) 0 : ℤ) : ℚ) /
        (tripData.speedReadings.length : ℚ)
    else 0
  let score : ℚ := 100
  let score := score - tripData.hardBrakes * 4
  let score := score - tripData.hardAccelerations * 4
  let score := score - tripData.speedingCount * 8
  let score : ℚ := ((max 0 (jsRound score) : ℤ) : ℚ)
  { distance_km := toFixed 2 tripData.distance
    duration_minutes := toFixed 2 durationMinutes
    max_speed := tripData.maxSpeed
    avg_speed := toFixed 1 avgSpeed
    hard_brakes := tripData.hardBrakes
    hard_accelerations := tripData.hardAccelerations
    speeding_count := tripData.speedingCount
    score := score }

/-! ## Per-field characterization of one update step -/

theorem handleLocationUpdate_previousSpeed (st : TrackState) (loc : LocationObject) :
    (handleLocationUpdate st loc).previousSpeed = speedOf loc := by
  cases h : st.previousLocation <;> simp [handleLocationUpdate, speedOf, h]

theorem handleLocationUpdateBg_previousSpeed (st : TrackState) (loc : LocationObject) :
    (handleLocationUpdateBg st loc).previousSpeed = speedOf loc := by
  cases h : st.previousLocation <;> simp [handleLocationUpdateBg, speedOf, h]

theorem handleLocationUpdate_speedReadings (st : TrackState) (loc : LocationObject) :
    (handleLocationUpdate st loc).tripData.speedReadings =
      st.tripData.speedReadings ++ [speedOf loc] := by
  cases h : st.previousLocation <;>
    (simp only [handleLocationUpdate, h, speedOf]; split_ifs <;> rfl)

theorem handleLocationUpdate_maxSpeed (st : TrackState) (loc : LocationObject) :
    (handleLocationUpdate st loc).tripData.maxSpeed =
      max st.tripData.maxSpeed (speedOf loc) := by
  cases h : st.previousLocation <;>
    (simp only [handleLocationUpdate, h, speedOf]
     split_ifs <;> simp_all <;> omega)

theorem handleLocationUpdate_hardBrakes (st : TrackState) (loc : LocationObject) :
    (handleLocationUpdate st loc).tripData.hardBrakes =
      if st.previousSpeed - speedOf loc > 15 then st.tripData.hardBrakes + 1
      else st.tripData.hardBrakes := by
  cases h : st.previousLocation <;>
    (simp only [handleLocationUpdate, h, speedOf]; split_ifs <;> rfl)

theorem handleLocationUpdateBg_hardBrakes (st : TrackState) (loc : LocationObject) :
    (handleLocationUpdateBg st loc).tripData.hardBrakes =
      if st.previousSpeed - speedOf loc > 15 ∧ st.previousSpeed > 20 then
        st.tripData.hardBrakes + 1
      else st.tripData.hardBrakes := by
  cases h : st.previousLocation <;>
    (simp only [handleLocationUpdateBg, h, speedOf]; split_ifs <;> rfl)

theorem handleLocationUpdate_hardAccelerations (st : TrackState) (loc : LocationObject) :
    (handleLocationUpdate st loc).tripData.hardAccelerations =
      if speedOf loc - st.previousSpeed > 15 then st.tripData.hardAccelerations + 1
      else st.tripData.hardAccelerations := by
  cases h : st.previousLocation <;>
    (simp only [handleLocationUpdate, h, speedOf]; split_ifs <;> rfl)

theorem handleLocationUpdate_speedingCount (st : TrackState) (loc : LocationObject) :
    (handleLocationUpdate st loc).tripData.speedingCount =
      if speedOf loc > 130 ∧ st.previousSpeed ≤ 130 then st.tripData.speedingCount + 1
      else st.tripData.speedingCount := by
  cases h : st.previousLocation <;>
    (simp only [handleLocationUpdate, h, speedOf]; split_ifs <;> rfl)

theorem handleLocationUpdate_distance (st : TrackState) (loc : LocationObject) :
    (handleLocationUpdate st loc).tripData.distance =
      match st.previousLocation with
      | some prev =>
          st.tripData.distance +
            calculateDistance prev.1 prev.2 loc.latitude loc.longitude
      | none => st.tripData.distance := by
  cases h : st.previousLocation <;>
    (simp only [handleLocationUpdate, h, speedOf]; split_ifs <;> rfl)

/-! ## Arithmetic helpers -/

theorem speedOf_nonneg (loc : LocationObject) : 0 ≤ speedOf loc :=
  le_max_left 0 _

theorem jsRound_intCast {α : Type} [LinearOrderedField α] [FloorRing α] (n : ℤ) :
    jsRound ((n : α)) = n := by
  unfold jsRound
  rw [add_comm, Int.floor_add_int]
  have h0 : ⌊(1 / 2 : α)⌋ = 0 := by
    rw [Int.floor_eq_zero_iff]
    constructor <;> norm_num
  omega

theorem jsRound_mono {α : Type} [LinearOrderedField α] [FloorRing α] {x y : α} (h : x ≤ y) :
    jsRound x ≤ jsRound y :=
  Int.floor_mono (by linarith)

theorem jsRound_zero {α : Type} [LinearOrderedField α] [FloorRing α] :
    jsRound (0 : α) = 0 := by
  simpa using jsRound_intCast (α := α) 0

theorem jsRound_nonneg {α : Type} [LinearOrderedField α] [FloorRing α] {x : α} (h : 0 ≤ x) :
    0 ≤ jsRound x :=
  jsRound_zero (α := α) ▸ jsRound_mono h

theorem toFixed_nonneg {α : Type} [LinearOrderedField α] [FloorRing α] (digits : ℕ) {x : α}
    (h : 0 ≤ x) : 0 ≤ toFixed digits x := by
  unfold toFixed
  have h1 : (0 : α) ≤ x * 10 ^ digits := by positivity
  have h2 : (0 : ℤ) ≤ jsRound (x * 10 ^ digits) := jsRound_nonneg h1
  have h3 : (0 : α) ≤ ((jsRound (x * 10 ^ digits) : ℤ) : α) := by exact_mod_cast h2
  positivity

theorem max_zero_jsRound (q : ℚ) : max 0 (jsRound q) = jsRound (max 0 q) := by
  rcases le_total q 0 with h | h
  · rw [max_eq_left h]
    have hle : jsRound q ≤ 0 := jsRound_zero (α := ℚ) ▸ jsRound_mono h
    rw [jsRound_zero, max_eq_left hle]
  · rw [max_eq_right h]
    have hle : 0 ≤ jsRound q := jsRound_nonneg h
    rw [max_eq_right hle]

/-! ## Geodesy helpers -/

theorem atan2_sqrt_nonneg (a : ℝ) : 0 ≤ atan2 (Real.sqrt a) (Real.sqrt (1 - a)) := by
  unfold atan2
  rw [Complex.arg_nonneg_iff]
  exact Real.sqrt_nonneg a

theorem calculateDistance_nonneg (lat1 lon1 lat2 lon2 : ℝ) :
    0 ≤ calculateDistance lat1 lon1 lat2 lon2 := by
  have key : ∀ A : ℝ, 0 ≤ (6371 : ℝ) * (2 * atan2 (Real.sqrt A) (Real.sqrt (1 - A))) := by
    intro A
    have h := atan2_sqrt_nonneg A
    nlinarith
  unfold calculateDistance
  exact key _

/-! ## Iterating updates -/

theorem runUpdates_nil (st : TrackState) : runUpdates st [] = st := rfl

theorem runUpdates_cons (st : TrackState) (loc : LocationObject) (locs : List LocationObject) :
    runUpdates st (loc :: locs) = runUpdates (handleLocationUpdate st loc) locs := rfl

theorem runUpdates_inv (P : TrackState → Prop)
    (step : ∀ st loc, P st → P (handleLocationUpdate st loc)) :
    ∀ (locs : List LocationObject) (st : TrackState), P st → P (runUpdates st locs) := by
  intro locs
  induction locs with
  | nil => intro st h; exact h
  | cons loc locs ih => intro st h; exact ih _ (step st loc h)

theorem runUpdates_length (locs : List LocationObject) :
    ∀ st : TrackState, (runUpdates st locs).tripData.speedReadings.length =
      st.tripData.speedReadings.length + locs.length := by
  induction locs with
  | nil => intro st; simp [runUpdates]
  | cons loc locs ih =>
      intro st
      rw [runUpdates_cons, ih, handleLocationUpdate_speedReadings]
      simp
      omega

theorem run_good (locs : List LocationObject) :
    (∀ x ∈ (runUpdates initialTrackState locs).tripData.speedReadings, 0 ≤ x) ∧
    0 ≤ (runUpdates initialTrackState locs).previousSpeed ∧
    0 ≤ (runUpdates initialTrackState locs).tripData.maxSpeed ∧
    (∀ x ∈ (runUpdates initialTrackState locs).tripData.speedReadings,
       x ≤ (runUpdates initialTrackState locs).tripData.maxSpeed) ∧
    ((runUpdates initialTrackState locs).tripData.maxSpeed ∈
        (runUpdates initialTrackState locs).tripData.speedReadings ∨
      ((runUpdates initialTrackState locs).tripData.speedReadings = [] ∧
        (runUpdates initialTrackState locs).tripData.maxSpeed = 0)) := by
  refine runUpdates_inv (fun st =>
      (∀ x ∈ st.tripData.speedReadings, 0 ≤ x) ∧ 0 ≤ st.previousSpeed ∧
      0 ≤ st.tripData.maxSpeed ∧
      (∀ x ∈ st.tripData.speedReadings, x ≤ st.tripData.maxSpeed) ∧
      (st.tripData.maxSpeed ∈ st.tripData.speedReadings ∨
        (st.tripData.speedReadings = [] ∧ st.tripData.maxSpeed = 0)))
    ?_ locs initialTrackState ?_
  · intro st loc h
    obtain ⟨hnn, hps, hms, hbnd, hatt⟩ := h
    simp only [handleLocationUpdate_speedReadings, handleLocationUpdate_maxSpeed,
      handleLocationUpdate_previousSpeed]
    refine ⟨?_, speedOf_nonneg loc, le_trans hms (le_max_left _ _), ?_, ?_⟩
    · intro x hx
      rcases List.mem_append.mp hx with hx | hx
      · exact hnn x hx
      · rw [List.mem_singleton.mp hx]
        exact speedOf_nonneg loc
    · intro x hx
      rcases List.mem_append.mp hx with hx | hx
      · exact le_trans (hbnd x hx) (le_max_left _ _)
      · rw [List.mem_singleton.mp hx]
        exact le_max_right _ _
    · rcases le_total (speedOf loc) st.tripData.maxSpeed with hle | hle
      · rw [max_eq_left hle]
        rcases hatt with hmem | ⟨hempty, hzero⟩
        · exact Or.inl (List.mem_append.mpr (Or.inl hmem))
        · have hsp : speedOf loc = 0 :=
            le_antisymm (hzero ▸ hle) (speedOf_nonneg loc)
          exact Or.inl (List.mem_append.mpr (Or.inr (by simp [hzero, hsp])))
      · rw [max_eq_right hle]
        exact Or.inl (List.mem_append.mpr (Or.inr (by simp)))
  · refine ⟨?_, ?_, ?_, ?_, ?_⟩ <;> simp [initialTrackState, initialTripData]

theorem handleLocationUpdateBg_speedingCount (st : TrackState) (loc : LocationObject) :
    (handleLocationUpdateBg st loc).tripData.speedingCount =
      if speedOf loc > 130 ∧ st.previousSpeed ≤ 130 then st.tripData.speedingCount + 1
      else st.tripData.speedingCount := by
  cases h : st.previousLocation <;>
    (simp only [handleLocationUpdateBg, h, speedOf]; split_ifs <;> rfl)

theorem foldl_add_nonneg (l : List ℤ) (h : ∀ x ∈ l, 0 ≤ x) :
    ∀ init : ℤ, 0 ≤ init → 0 ≤ l.foldl (fun a b => a + b) init := by
  induction l with
  | nil => intro init h0; simpa using h0
  | cons x l ih =>
      intro init h0
      simp only [List.foldl_cons]
      exact ih (fun y hy => h y (List.mem_cons_of_mem x hy)) (init + x)
        (add_nonneg h0 (h x (List.mem_cons_self x l)))

theorem speedOf_some (lat lon : ℝ) (q : ℚ) (n : ℤ) (h : q * (3.6 : ℚ) = (n : ℚ))
    (hn : 0 ≤ n) : speedOf ⟨lat, lon, some q⟩ = n := by
  unfold speedOf
  simp only [Option.getD_some]
  rw [h, jsRound_intCast, max_eq_right hn]

/-! ## The claims -/

/-- C7: the great-circle distance is symmetric: for every pair of
coordinate pairs `a` and `b`, the distance from `a` to `b` equals the
distance from `b` to `a`. -/
theorem calculateDistance_symm (lat1 lon1 lat2 lon2 : ℝ) :
    calculateDistance lat1 lon1 lat2 lon2 = calculateDistance lat2 lon2 lat1 lon1 := by
  simp only [calculateDistance]
  have e1 : (lat1 - lat2) * Real.pi / 180 / 2 = -((lat2 - lat1) * Real.pi / 180 / 2) := by
    ring
  have e2 : (lon1 - lon2) * Real.pi / 180 / 2 = -((lon2 - lon1) * Real.pi / 180 / 2) := by
    ring
  have hA :
      Real.sin ((lat1 - lat2) * Real.pi / 180 / 2) * Real.sin ((lat1 - lat2) * Real.pi / 180 / 2) +
        Real.cos (lat2 * Real.pi / 180) * Real.cos (lat1 * Real.pi / 180) *
          Real.sin ((lon1 - lon2) * Real.pi / 180 / 2) *
          Real.sin ((lon1 - lon2) * Real.pi / 180 / 2) =
      Real.sin ((lat2 - lat1) * Real.pi / 180 / 2) * Real.sin ((lat2 - lat1) * Real.pi / 180 / 2) +
        Real.cos (lat1 * Real.pi / 180) * Real.cos (lat2 * Real.pi / 180) *
          Real.sin ((lon2 - lon1) * Real.pi / 180 / 2) *
          Real.sin ((lon2 - lon1) * Real.pi / 180 / 2) := by
    rw [e1, e2, Real.sin_neg, Real.sin_neg]
    ring
  rw [hA]

/-- C4: a single `handleLocationUpdate` call never decreases `distance`,
`maxSpeed`, `hardBrakes`, `hardAccelerations` or `speedingCount`: each is
either increased or left unchanged, whatever the current state and the
incoming sample, so all five are non-decreasing along any sample
sequence. -/
theorem accumulator_fields_monotone (st : TrackState) (loc : LocationObject) :
    st.tripData.distance ≤ (handleLocationUpdate st loc).tripData.distance ∧
    st.tripData.maxSpeed ≤ (handleLocationUpdate st loc).tripData.maxSpeed ∧
    st.tripData.hardBrakes ≤ (handleLocationUpdate st loc).tripData.hardBrakes ∧
    st.tripData.hardAccelerations ≤ (handleLocationUpdate st loc).tripData.hardAccelerations ∧
    st.tripData.speedingCount ≤ (handleLocationUpdate st loc).tripData.speedingCount := by
  refine ⟨?_, ?_, ?_, ?_, ?_⟩
  · rw [handleLocationUpdate_distance]
    cases hp : st.previousLocation
    · simp
    · exact le_add_of_nonneg_right (calculateDistance_nonneg _ _ _ _)
  · rw [handleLocationUpdate_maxSpeed]
    exact le_max_left _ _
  · rw [handleLocationUpdate_hardBrakes]
    split_ifs <;> omega
  · rw [handleLocationUpdate_hardAccelerations]
    split_ifs <;> omega
  · rw [handleLocationUpdate_speedingCount]
    split_ifs <;> omega

/-- C8: every `handleLocationUpdate` call unconditionally appends exactly
one element to `speedReadings`, so after any sequence of calls on the
freshly created accumulator its length equals the number of samples
fed. -/
theorem speedReadings_length_eq_updates :
    (∀ (st : TrackState) (loc : LocationObject),
        (handleLocationUpdate st loc).tripData.speedReadings.length =
          st.tripData.speedReadings.length + 1) ∧
    ∀ locs : List LocationObject,
      (runUpdates initialTrackState locs).tripData.speedReadings.length = locs.length := by
  constructor
  · intro st loc
    rw [handleLocationUpdate_speedReadings]
    simp
  · intro locs
    rw [runUpdates_length]
    simp [initialTrackState, initialTripData]

/-- C1: the score produced at trip end equals
100 − 4·hardBrakes − 4·hardAccelerations − 8·speedingCount clamped below
at 0, in both finalization variants (the background variant's extra
round is the identity on this integer value); it always lies in
[0, 100], and an accumulator with enough events to drive the formula
negative (20 speeding events) yields score 0. -/
theorem score_formula_clamped (tripData : TripData) (startTimeMs endTimeMs : ℚ) :
    (stopTracking tripData startTimeMs endTimeMs).score =
      ((max 0 (100 - 4 * (tripData.hardBrakes : ℤ) - 4 * (tripData.hardAccelerations : ℤ) -
          8 * (tripData.speedingCount : ℤ)) : ℤ) : ℚ) ∧
    (stopTrackingBg tripData startTimeMs endTimeMs).score =
      ((max 0 (100 - 4 * (tripData.hardBrakes : ℤ) - 4 * (tripData.hardAccelerations : ℤ) -
          8 * (tripData.speedingCount : ℤ)) : ℤ) : ℚ) ∧
    0 ≤ (stopTracking tripData startTimeMs endTimeMs).score ∧
    (stopTracking tripData startTimeMs endTimeMs).score ≤ 100 ∧
    (stopTracking { initialTripData with speedingCount := 20 } startTimeMs endTimeMs).score
      = 0 := by
  have hint : (100 - (tripData.hardBrakes : ℚ) * 4 - (tripData.hardAccelerations : ℚ) * 4 -
      (tripData.speedingCount : ℚ) * 8) =
      ((100 - 4 * (tripData.hardBrakes : ℤ) - 4 * (tripData.hardAccelerations : ℤ) -
        8 * (tripData.speedingCount : ℤ) : ℤ) : ℚ) := by
    push_cast
    ring
  have h1 : (stopTracking tripData startTimeMs endTimeMs).score =
      ((max 0 (100 - 4 * (tripData.hardBrakes : ℤ) - 4 * (tripData.hardAccelerations : ℤ) -
          8 * (tripData.speedingCount : ℤ)) : ℤ) : ℚ) := by
    simp only [stopTracking]
    rw [hint, Int.cast_max, Int.cast_zero]
  have h2 : (stopTrackingBg tripData startTimeMs endTimeMs).score =
      ((max 0 (100 - 4 * (tripData.hardBrakes : ℤ) - 4 * (tripData.hardAccelerations : ℤ) -
          8 * (tripData.speedingCount : ℤ)) : ℤ) : ℚ) := by
    simp only [stopTrackingBg]
    rw [hint, jsRound_intCast]
  refine ⟨h1, h2, ?_, ?_, ?_⟩
  · rw [h1]
    exact_mod_cast le_max_left (0 : ℤ) _
  · rw [h1]
    have hb : max 0 (100 - 4 * (tripData.hardBrakes : ℤ) - 4 * (tripData.hardAccelerations : ℤ) -
        8 * (tripData.speedingCount : ℤ)) ≤ 100 := by
      omega
    exact_mod_cast hb
  · simp only [stopTracking, initialTripData]
    norm_num

/-- C5: finalizing an accumulator that received zero updates yields a
summary with score 100, zero distance and zero average speed (the empty
reading list is averaged to 0 instead of failing). -/
theorem finalize_fresh_accumulator (startTimeMs endTimeMs : ℚ) :
    (stopTracking initialTripData startTimeMs endTimeMs).score = 100 ∧
    (stopTracking initialTripData startTimeMs endTimeMs).distance_km = 0 ∧
    (stopTracking initialTripData startTimeMs endTimeMs).avg_speed = 0 := by
  refine ⟨?_, ?_, ?_⟩
  · simp only [stopTracking, initialTripData]
    norm_num
  · simp only [stopTracking, initialTripData, toFixed]
    norm_num [jsRound_zero]
  · simp only [stopTracking, initialTripData, toFixed]
    norm_num [jsRound_zero]

/-- C2 counterexample: in the background-tracking screen's handler the
hard-brake increment has an extra precondition on the previous speed.
Feed a fix at 5 m/s (18 km/h) and then one at 0: the signed delta
`lastSpeedKmh − speedKmh = 18` exceeds 15, yet `hardBrakes` stays 0
because the previous speed 18 is not above the 20 km/h guard. -/
theorem hardBrake_guard_cx :
    (handleLocationUpdate initialTrackState ⟨0, 0, some 5⟩).previousSpeed -
        speedOf ⟨0, 0, some 0⟩ > 15 ∧
    (handleLocationUpdateBg (handleLocationUpdate initialTrackState ⟨0, 0, some 5⟩)
        ⟨0, 0, some 0⟩).tripData.hardBrakes = 0 ∧
    (handleLocationUpdate initialTrackState ⟨0, 0, some 5⟩).tripData.hardBrakes = 0 := by
  have h5 : speedOf ⟨0, 0, some 5⟩ = 18 := speedOf_some 0 0 5 18 (by norm_num) (by norm_num)
  have h0 : speedOf ⟨0, 0, some 0⟩ = 0 := speedOf_some 0 0 0 0 (by norm_num) (by norm_num)
  refine ⟨?_, ?_, ?_⟩
  · rw [handleLocationUpdate_previousSpeed, h5, h0]
    norm_num
  · simp only [handleLocationUpdateBg_hardBrakes, handleLocationUpdate_hardBrakes,
      handleLocationUpdate_previousSpeed, h5, h0, initialTrackState, initialTripData]
    norm_num
  · simp only [handleLocationUpdate_hardBrakes, h5, initialTrackState, initialTripData]
    norm_num

/-- C2 amended: in the first tracking screen's handler, `hardBrakes` is
incremented by exactly 1 precisely when the signed delta
`lastSpeedKmh − speedKmh` exceeds 15, with no further precondition, and
is unchanged otherwise; in the background-tracking screen's handler the
increment additionally requires the previous speed to exceed 20 km/h. -/
theorem hardBrake_increment_characterization (st : TrackState) (loc : LocationObject) :
    ((handleLocationUpdate st loc).tripData.hardBrakes =
      if st.previousSpeed - speedOf loc > 15 then st.tripData.hardBrakes + 1
      else st.tripData.hardBrakes) ∧
    ((handleLocationUpdateBg st loc).tripData.hardBrakes =
      if st.previousSpeed - speedOf loc > 15 ∧ st.previousSpeed > 20 then
        st.tripData.hardBrakes + 1
      else st.tripData.hardBrakes) :=
  ⟨handleLocationUpdate_hardBrakes st loc, handleLocationUpdateBg_hardBrakes st loc⟩

/-- C3: `speedingCount` is incremented by exactly 1 precisely when the
converted speed exceeds 130 and the previous speed was at most 130
(a crossing into the speeding band), in both handler variants, and is
unchanged otherwise; feeding speeds 125 → 135 → 140 → 120 km/h (raw
625/18, 37.5, 350/9, 100/3 m/s) to a fresh accumulator yields
`speedingCount = 1`, not one per above-limit sample. -/
theorem speeding_edge_trigger :
    (∀ (st : TrackState) (loc : LocationObject),
        (handleLocationUpdate st loc).tripData.speedingCount =
          if speedOf loc > 130 ∧ st.previousSpeed ≤ 130 then st.tripData.speedingCount + 1
          else st.tripData.speedingCount) ∧
    (∀ (st : TrackState) (loc : LocationObject),
        (handleLocationUpdateBg st loc).tripData.speedingCount =
          if speedOf loc > 130 ∧ st.previousSpeed ≤ 130 then st.tripData.speedingCount + 1
          else st.tripData.speedingCount) ∧
    (runUpdates initialTrackState
        [⟨0, 0, some (625 / 18)⟩, ⟨0, 0, some (75 / 2)⟩, ⟨0, 0, some (350 / 9)⟩,
          ⟨0, 0, some (100 / 3)⟩]).tripData.speedingCount = 1 := by
  refine ⟨handleLocationUpdate_speedingCount, handleLocationUpdateBg_speedingCount, ?_⟩
  have e1 : speedOf ⟨0, 0, some (625 / 18)⟩ = 125 :=
    speedOf_some 0 0 (625 / 18) 125 (by norm_num) (by norm_num)
  have e2 : speedOf ⟨0, 0, some (75 / 2)⟩ = 135 :=
    speedOf_some 0 0 (75 / 2) 135 (by norm_num) (by norm_num)
  have e3 : speedOf ⟨0, 0, some (350 / 9)⟩ = 140 :=
    speedOf_some 0 0 (350 / 9) 140 (by norm_num) (by norm_num)
  have e4 : speedOf ⟨0, 0, some (100 / 3)⟩ = 120 :=
    speedOf_some 0 0 (100 / 3) 120 (by norm_num) (by norm_num)
  simp only [runUpdates, List.foldl_cons, List.foldl_nil,
    handleLocationUpdate_speedingCount, handleLocationUpdate_previousSpeed,
    e1, e2, e3, e4, initialTrackState, initialTripData]
  norm_num

/-- C6: the speed recorded by an update (remembered as `previousSpeed`)
equals `round(max(0, speedMetersPerSecond × 3.6))` — even though the
implementations round before clamping, the two orders agree — and any
non-positive or absent raw speed is recorded as 0, in both handler
variants. -/
theorem speed_conversion_clamp_round :
    (∀ (st : TrackState) (loc : LocationObject),
        (handleLocationUpdate st loc).previousSpeed =
          jsRound (max 0 ((loc.speed.getD 0) * (3.6 : ℚ))) ∧
        (handleLocationUpdateBg st loc).previousSpeed =
          jsRound (max 0 ((loc.speed.getD 0) * (3.6 : ℚ)))) ∧
    (∀ (st : TrackState) (lat lon : ℝ) (q : ℚ),
        (handleLocationUpdate st ⟨lat, lon, some (min q 0)⟩).previousSpeed = 0) ∧
    (∀ (st : TrackState) (lat lon : ℝ),
        (handleLocationUpdate st ⟨lat, lon, none⟩).previousSpeed = 0) := by
  refine ⟨fun st loc => ⟨?_, ?_⟩, fun st lat lon q => ?_, fun st lat lon => ?_⟩
  · rw [handleLocationUpdate_previousSpeed, speedOf, max_zero_jsRound]
  · rw [handleLocationUpdateBg_previousSpeed, speedOf, max_zero_jsRound]
  · rw [handleLocationUpdate_previousSpeed, speedOf]
    have hq : (Option.getD (some (min q 0)) 0) * (3.6 : ℚ) ≤ 0 := by
      have h0 : min q 0 ≤ 0 := min_le_right q 0
      simp only [Option.getD_some]
      nlinarith
    have hle : jsRound ((Option.getD (some (min q 0)) 0) * (3.6 : ℚ)) ≤ 0 :=
      jsRound_zero (α := ℚ) ▸ jsRound_mono hq
    exact max_eq_left hle
  · rw [handleLocationUpdate_previousSpeed, speedOf]
    simp only [Option.getD_none, zero_mul]
    rw [jsRound_zero]
    simp

/-- C9: after any sequence of updates on a fresh accumulator, the running
maximum is exactly the maximum element of `speedReadings` when readings
exist (so it is attained by a recorded sample), and is 0 when the list
is empty. -/
theorem maxSpeed_attained (locs : List LocationObject) :
    (runUpdates initialTrackState locs).tripData.speedReadings.maximum =
        ((runUpdates initialTrackState locs).tripData.maxSpeed : WithBot ℤ) ∨
      ((runUpdates initialTrackState locs).tripData.speedReadings = [] ∧
        (runUpdates initialTrackState locs).tripData.maxSpeed = 0) := by
  obtain ⟨hnn, hps, hms, hbnd, hatt⟩ := run_good locs
  rcases hatt with hmem | hempty
  · left
    rw [List.maximum_eq_coe_iff]
    exact ⟨hmem, hbnd⟩
  · right
    exact hempty

/-- C10: after any sequence of updates on a fresh accumulator, every
recorded reading, the running maximum and the remembered previous speed
are non-negative (they are integers by construction of the
clamp-and-round conversion), and the average speed computed at finalize
is non-negative as well. -/
theorem speeds_nonneg (locs : List LocationObject) (startTimeMs endTimeMs : ℚ) :
    (∀ x ∈ (runUpdates initialTrackState locs).tripData.speedReadings, 0 ≤ x) ∧
    0 ≤ (runUpdates initialTrackState locs).tripData.maxSpeed ∧
    0 ≤ (runUpdates initialTrackState locs).previousSpeed ∧
    0 ≤ (stopTracking (runUpdates initialTrackState locs).tripData
          startTimeMs endTimeMs).avg_speed := by
  obtain ⟨hnn, hps, hms, hbnd, hatt⟩ := run_good locs
  refine ⟨hnn, hms, hps, ?_⟩
  simp only [stopTracking]
  apply toFixed_nonneg
  split_ifs with hlen
  · apply div_nonneg
    · exact_mod_cast foldl_add_nonneg _ hnn 0 le_rfl
    · exact_mod_cast Nat.zero_le _
  · exact le_rfl
